import Mathlib

/-!
Verification of the scheduling engine of `singleschedule` (Rust).

Source files modelled here:
  - `src/scheduler.rs` : `Scheduler::should_run`, `Scheduler::check_and_run_tasks`,
    `Scheduler::reload_events`, `Scheduler::run`
  - `src/storage.rs`   : `Event`, `Storage`, `Storage::load`, `Storage::save`
  - `src/cli.rs`       : `handle_add`
  - `src/daemon.rs`    : `stop_daemon`

Timestamps (`chrono::DateTime<Utc>`) are modelled as integers counting seconds
since the Unix epoch; the only arithmetic the scheduler performs on them is
comparison and adding a 30-second tolerance, both exact at this granularity.

The `cron` crate is an external dependency.  The only part of its interface the
scheduler uses is `Schedule::after(&t).next()`: the first occurrence of the
parsed expression strictly after `t`, or `None` when the rule is exhausted.  A
`Schedule` is therefore modelled as that function together with the strictness
guarantee; concrete cron expressions used in tests below are instantiated
explicitly (`everySecond` for `* * * * * *`, `everyMinuteTop` for
`0 * * * * *`, `exhaustedRule` for a rule with no remaining occurrence).
-/

set_option autoImplicit false

/-- Model of a parsed `cron::Schedule` as used by the scheduler: `nextAfter t`
is `Schedule::after(&t).next()`, the first occurrence strictly after `t`
(`none` when the rule has no occurrence after `t`).  The field `nextAfter_gt`
records the crate's guarantee that occurrences returned by `after` are
strictly later than the query point. -/
structure Schedule where
  nextAfter : Int → Option Int
  nextAfter_gt : ∀ t u, nextAfter t = some u → t < u

/-- The fixed catch-up tolerance of `Scheduler::should_run`:
`chrono::Duration::seconds(30)`. -/
def tolerance : Int := 30

/-- The fallback baseline of `Scheduler::should_run` when a task has never
run: `DateTime::from_timestamp(0, 0)`, the Unix epoch. -/
def epoch : Int := 0

/-- Model of `Scheduler::should_run(schedule, last_run, now)` from
`src/scheduler.rs`: take `last = last_run.unwrap_or(epoch)`; if the schedule
has an occurrence after `last`, the task is due when that occurrence is at
most `now + 30` seconds; otherwise it is not due. -/
def shouldRun (schedule : Schedule) (lastRun : Option Int) (now : Int) : Bool :=
  let last := lastRun.getD epoch
  match schedule.nextAfter last with
  | some next => decide (next ≤ now + tolerance)
  | none => false

/-- Model of the cron expression `* * * * * *` (every second): the first
occurrence strictly after an integral timestamp `t` is `t + 1`. -/
def everySecond : Schedule where
  nextAfter t := some (t + 1)
  nextAfter_gt := by
    intro t u h
    simp only [Option.some.injEq] at h
    omega

/-- Model of the cron expression `0 * * * * *` (top of each minute): the first
occurrence strictly after `t` is the next multiple of 60 after `t`. -/
def everyMinuteTop : Schedule where
  nextAfter t := some (t + (60 - t.emod 60))
  nextAfter_gt := by
    intro t u h
    simp only [Option.some.injEq] at h
    have h60 : t.emod 60 < 60 := Int.emod_lt_of_pos t (by decide)
    omega

/-- Model of an exhausted cron rule (for example a fixed date in the past):
`after` yields no further occurrence. -/
def exhaustedRule : Schedule where
  nextAfter _ := none
  nextAfter_gt := by intro t u h; cases h

/-- C1: `should_run` returns true exactly when the first occurrence of the
rule strictly after the baseline (the last-run timestamp, or the epoch when
`last_run` is absent) is at most `now + 30` seconds; when the rule has no
occurrence after the baseline it returns false. -/
theorem shouldRun_iff_first_occurrence_within_tolerance
    (s : Schedule) (lastRun : Option Int) (now : Int) :
    (shouldRun s lastRun now = true ↔
      ∃ next, s.nextAfter (lastRun.getD epoch) = some next ∧
        lastRun.getD epoch < next ∧ next ≤ now + tolerance)
    ∧ (s.nextAfter (lastRun.getD epoch) = none → shouldRun s lastRun now = false) := by
  constructor
  · unfold shouldRun
    cases h : s.nextAfter (lastRun.getD epoch) with
    | none => simp [h]
    | some next =>
      simp only [h, decide_eq_true_eq, Option.some.injEq]
      constructor
      · intro hle
        exact ⟨next, rfl, s.nextAfter_gt _ _ h, hle⟩
      · rintro ⟨m, rfl, -, hle⟩
        exact hle
  · intro h
    unfold shouldRun
    simp [h]

/-- Witness for C1 at a concrete input: an exhausted rule is never due. -/
theorem shouldRun_iff_first_occurrence_within_tolerance_witness :
    shouldRun exhaustedRule none 0 = false :=
  (shouldRun_iff_first_occurrence_within_tolerance exhaustedRule none 0).2 rfl

/-- Model of `storage::Event` from `src/storage.rs`.  `pid` is `Option<u32>`
in the source, modelled as an integer.  The `active` flag is declared by the
struct literals in `src/cli.rs`, `src/lib.rs` and the TUI modules (the struct
declaration in `src/storage.rs` is a stale revision that omits it); the
scheduler never reads it. -/
structure Event where
  slug : String
  cron : String
  command : String
  pid : Option Int
  createdAt : Int
  lastRun : Option Int
  active : Bool
  deriving DecidableEq, Repr

/-- Model of `storage::Storage`: the registry is the list of events in file
order. -/
structure Storage where
  events : List Event
  deriving DecidableEq, Repr

/-- Model of `Storage::new()`: an empty registry. -/
def Storage.new : Storage := ⟨[]⟩

/-- Outcome of `Scheduler::run_command` for one task: either the process was
spawned and waited on (`spawned success`, where `success` is
`output.status.success()`), or `run_command` returned `Err` (empty command, or
the program could not be spawned). -/
inductive RunResult where
  | spawned (success : Bool)
  | spawnError
  deriving DecidableEq, Repr

/-- The condition under which `Scheduler::check_and_run_tasks` pushes index
`j` onto `tasks_to_update`: the task's slug has an entry in the schedule map,
`should_run` holds, and `run_command` returned `Ok` (whatever the exit
status).  `outcome j` is the run outcome of the task at index `j`. -/
def runsAt (schedules : String → Option Schedule) (outcome : Nat → RunResult)
    (now : Int) (j : Nat) (e : Event) : Bool :=
  match schedules e.slug with
  | some sched =>
    shouldRun sched e.lastRun now &&
      (match outcome j with
       | .spawned _ => true
       | .spawnError => false)
  | none => false

/-- First loop of `Scheduler::check_and_run_tasks`: walk the events from
index `k` upward and collect `tasks_to_update`, the indices of tasks that
were due and whose command was spawned. -/
def collectUpdates (schedules : String → Option Schedule) (outcome : Nat → RunResult)
    (now : Int) : Nat → List Event → List Nat
  | _, [] => []
  | k, e :: rest =>
    if runsAt schedules outcome now k e then
      k :: collectUpdates schedules outcome now (k + 1) rest
    else
      collectUpdates schedules outcome now (k + 1) rest

/-- Second loop of `Scheduler::check_and_run_tasks`: for each index in
`tasksToUpdate`, set that event's `last_run` to `Some(now)`; `k` is the index
of the first event of the list. -/
def applyUpdates (tasksToUpdate : List Nat) (now : Int) : Nat → List Event → List Event
  | _, [] => []
  | k, e :: rest =>
    (if k ∈ tasksToUpdate then { e with lastRun := some now } else e) ::
      applyUpdates tasksToUpdate now (k + 1) rest

/-- Model of `Scheduler::check_and_run_tasks(now)` on the registry contents:
evaluate every event against the schedule map, run the due ones (outcomes
given by the oracle `outcome`), then set `last_run := Some(now)` exactly for
the indices collected in `tasks_to_update`.  Returns the updated event list
(which the source then persists when any task ran). -/
def checkAndRunTasks (schedules : String → Option Schedule) (outcome : Nat → RunResult)
    (events : List Event) (now : Int) : List Event :=
  applyUpdates (collectUpdates schedules outcome now 0 events) now 0 events

theorem applyUpdates_length (upd : List Nat) (now : Int) :
    ∀ (k : Nat) (events : List Event),
      (applyUpdates upd now k events).length = events.length := by
  intro k events
  induction events generalizing k with
  | nil => rfl
  | cons e rest ih => simp [applyUpdates, ih]

theorem checkAndRunTasks_length (schedules : String → Option Schedule)
    (outcome : Nat → RunResult) (events : List Event) (now : Int) :
    (checkAndRunTasks schedules outcome events now).length = events.length :=
  applyUpdates_length _ _ _ _

theorem applyUpdates_getElem? (upd : List Nat) (now : Int) :
    ∀ (k : Nat) (events : List Event) (i : Nat),
      (applyUpdates upd now k events)[i]? =
        (events[i]?).map
          (fun e => if k + i ∈ upd then { e with lastRun := some now } else e) := by
  intro k events
  induction events generalizing k with
  | nil => intro i; rfl
  | cons e rest ih =>
    intro i
    cases i with
    | zero => simp [applyUpdates]
    | succ n =>
      simp only [applyUpdates, List.getElem?_cons_succ]
      rw [ih (k + 1) n]
      have : k + 1 + n = k + (n + 1) := by omega
      rw [this]

theorem mem_collectUpdates (schedules : String → Option Schedule)
    (outcome : Nat → RunResult) (now : Int) :
    ∀ (k : Nat) (events : List Event) (j : Nat),
      j ∈ collectUpdates schedules outcome now k events ↔
        ∃ i, ∃ e, i < events.length ∧ events[i]? = some e ∧ j = k + i ∧
          runsAt schedules outcome now j e = true := by
  intro k events
  induction events generalizing k with
  | nil => intro j; simp [collectUpdates]
  | cons e rest ih =>
    intro j
    simp only [collectUpdates]
    by_cases h : runsAt schedules outcome now k e = true
    · simp only [if_pos h, List.mem_cons, ih (k + 1)]
      constructor
      · rintro (rfl | ⟨i, e', hi, he', rfl, hr⟩)
        · exact ⟨0, e, by simp, by simp, by omega, h⟩
        · exact ⟨i + 1, e', by simpa using hi, by simpa using he', by omega, hr⟩
      · rintro ⟨i, e', hi, he', rfl, hr⟩
        cases i with
        | zero => left; omega
        | succ n =>
          right
          exact ⟨n, e', by simpa using hi, by simpa using he', by omega, by convert hr using 2⟩
    · simp only [if_neg h, ih (k + 1)]
      constructor
      · rintro ⟨i, e', hi, he', rfl, hr⟩
        exact ⟨i + 1, e', by simpa using hi, by simpa using he', by omega, by convert hr using 2⟩
      · rintro ⟨i, e', hi, he', rfl, hr⟩
        cases i with
        | zero =>
          exfalso
          simp only [List.getElem?_cons_zero, Option.some.injEq] at he'
          subst he'
          simp only [Nat.add_zero] at hr
          exact h hr
        | succ n =>
          exact ⟨n, e', by simpa using hi, by simpa using he', by omega, by convert hr using 2⟩

/-- Per-index characterisation of one tick: the event at index `i` after
`check_and_run_tasks` is the old event with `last_run := Some(now)` when the
task had a schedule entry, was due and its command was spawned, and the old
event unchanged otherwise. -/
theorem checkAndRunTasks_getElem? (schedules : String → Option Schedule)
    (outcome : Nat → RunResult) (events : List Event) (now : Int) (i : Nat)
    (e : Event) (he : events[i]? = some e) :
    (checkAndRunTasks schedules outcome events now)[i]? =
      some (if runsAt schedules outcome now i e then { e with lastRun := some now } else e) := by
  have hlen : i < events.length := by
    by_contra hcon
    push_neg at hcon
    rw [List.getElem?_eq_none hcon] at he
    cases he
  have hmem : i ∈ collectUpdates schedules outcome now 0 events ↔
      runsAt schedules outcome now i e = true := by
    rw [mem_collectUpdates]
    constructor
    · rintro ⟨i', e', hi', he', hji, hr⟩
      have : i' = i := by omega
      subst this
      rw [he] at he'
      cases he'
      exact hr
    · intro hr
      exact ⟨i, e, hlen, he, by omega, hr⟩
  unfold checkAndRunTasks
  rw [applyUpdates_getElem?, he]
  by_cases h : runsAt schedules outcome now i e = true
  · simp [hmem, h]
  · simp [hmem, h]

theorem runsAt_eq_true_iff (schedules : String → Option Schedule)
    (outcome : Nat → RunResult) (now : Int) (j : Nat) (e : Event) :
    runsAt schedules outcome now j e = true ↔
      ∃ sched, schedules e.slug = some sched ∧ shouldRun sched e.lastRun now = true ∧
        ∃ b, outcome j = RunResult.spawned b := by
  unfold runsAt
  cases hs : schedules e.slug with
  | none => simp
  | some sched =>
    cases ho : outcome j with
    | spawned b => simp [ho]
    | spawnError => simp [ho]

/-- Schedule map holding only the slug `t`, bound to the every-second rule:
the index built from a one-task registry whose cron is `* * * * * *`. -/
def schedOnlyT : String → Option Schedule :=
  fun s => if s = "t" then some everySecond else none

/-- Schedule map holding only the slug `m`, bound to the top-of-minute rule:
the index built from a one-task registry whose cron is `0 * * * * *`. -/
def schedOnlyM : String → Option Schedule :=
  fun s => if s = "m" then some everyMinuteTop else none

/-- An inactive task (`active = false`) with a valid every-second cron that
has never run. -/
def taskInactive : Event :=
  { slug := "t", cron := "* * * * * *", command := "echo hi", pid := none,
    createdAt := 0, lastRun := none, active := false }

/-- An active task with a valid every-second cron that has never run. -/
def taskNeverRun : Event :=
  { slug := "t", cron := "* * * * * *", command := "echo hi", pid := none,
    createdAt := 0, lastRun := none, active := true }

/-- An active task with a valid top-of-minute cron that has never run. -/
def taskMinute : Event :=
  { slug := "m", cron := "0 * * * * *", command := "echo hi", pid := none,
    createdAt := 0, lastRun := none, active := true }

/-- An active task whose recorded `last_run` is timestamp 5. -/
def taskRanAtFive : Event :=
  { slug := "t", cron := "* * * * * *", command := "echo hi", pid := none,
    createdAt := 0, lastRun := some 5, active := true }

/-- C2: evaluation of `check_and_run_tasks` at the failing input.  The spec
says inactive tasks are skipped by the evaluator (never evaluated, never run,
`last_run` never updated), but `check_and_run_tasks` never reads the `active`
flag: a tick over a registry holding one inactive task with an index entry
evaluates it, runs it, and sets its `last_run` to the tick's `now`. -/
theorem inactive_task_still_run_by_tick :
    taskInactive.active = false ∧
    checkAndRunTasks schedOnlyT (fun _ => RunResult.spawned true) [taskInactive] 100 =
      [{ taskInactive with lastRun := some 100 }] := by
  constructor
  · rfl
  · decide

/-- C3 counterexample: the claim says `last_run` is set after the execution
attempt even when the program cannot be spawned at all; in the source the
`Err` branch of `run_command` does not push the index onto `tasks_to_update`,
so a due task whose spawn fails keeps its previous `last_run`.  Here the task
is due (`should_run` is true) yet the tick leaves the event unchanged. -/
theorem spawn_failure_leaves_last_run_unset :
    shouldRun everySecond none 100 = true ∧
    checkAndRunTasks schedOnlyT (fun _ => RunResult.spawnError) [taskNeverRun] 100 =
      [taskNeverRun] := by
  constructor
  · decide
  · decide

/-- C3 amended: on a tick, a due task's `last_run` is set to the tick's `now`
after every attempt in which the process was spawned, whether it exited zero
or non-zero; when `run_command` fails (empty command or spawn failure), or
the task has no index entry, or it is not due, the event is left unchanged. -/
theorem tick_updates_last_run_iff_command_spawned
    (schedules : String → Option Schedule) (outcome : Nat → RunResult)
    (events : List Event) (now : Int) (i : Nat) (e : Event)
    (he : events[i]? = some e) :
    ((∃ sched, schedules e.slug = some sched ∧ shouldRun sched e.lastRun now = true ∧
        ∃ b, outcome i = RunResult.spawned b) →
      (checkAndRunTasks schedules outcome events now)[i]? =
        some { e with lastRun := some now })
    ∧ ((outcome i = RunResult.spawnError ∨ schedules e.slug = none ∨
        (∀ sched, schedules e.slug = some sched → shouldRun sched e.lastRun now = false)) →
      (checkAndRunTasks schedules outcome events now)[i]? = some e) := by
  have key := checkAndRunTasks_getElem? schedules outcome events now i e he
  constructor
  · intro hruns
    rw [key, if_pos ((runsAt_eq_true_iff schedules outcome now i e).mpr hruns)]
  · intro hno
    rw [key, if_neg ?_]
    intro hruns
    rcases (runsAt_eq_true_iff schedules outcome now i e).mp hruns with
      ⟨sched, hs, hdue, b, hb⟩
    rcases hno with hspawn | hnone | hnotdue
    · rw [hspawn] at hb
      cases hb
    · rw [hnone] at hs
      cases hs
    · rw [hnotdue sched hs] at hdue
      cases hdue

/-- Witness for C3 at a concrete input: the due task whose spawn fails is
left unchanged by the tick. -/
theorem tick_updates_last_run_iff_command_spawned_witness :
    (checkAndRunTasks schedOnlyT (fun _ => RunResult.spawnError) [taskNeverRun] 100)[0]? =
      some taskNeverRun :=
  (tick_updates_last_run_iff_command_spawned schedOnlyT (fun _ => RunResult.spawnError)
    [taskNeverRun] 100 0 taskNeverRun rfl).2 (Or.inl rfl)

/-- C4 counterexample: with the every-second rule, a tick at `now = 100`
whose run succeeds sets `last_run` to 100, yet the subsequent due check with
the new `last_run` at the same `now` returns true (the next occurrence 101 is
within the 30-second tolerance), not false as the claim states. -/
theorem frequent_rule_fires_again_at_same_now :
    checkAndRunTasks schedOnlyT (fun _ => RunResult.spawned true) [taskNeverRun] 100 =
      [{ taskNeverRun with lastRun := some 100 }] ∧
    shouldRun everySecond (some 100) 100 = true := by
  constructor
  · decide
  · decide

/-- C4 amended: after a successful run in a tick, `last_run` is set to
exactly the tick's `now` (hence a timestamp greater than or equal to `now`),
and the subsequent due check with the same rule, the new `last_run` and the
same `now` returns false if and only if the rule's first occurrence strictly
after `now` is later than `now + 30` seconds; rules with an occurrence within
the tolerance of `now` fire again. -/
theorem no_double_fire_iff_next_occurrence_beyond_tolerance
    (schedules : String → Option Schedule) (outcome : Nat → RunResult)
    (events : List Event) (now : Int) (i : Nat) (e : Event) (s : Schedule)
    (he : events[i]? = some e) (hs : schedules e.slug = some s)
    (hdue : shouldRun s e.lastRun now = true) (b : Bool)
    (hb : outcome i = RunResult.spawned b) :
    (checkAndRunTasks schedules outcome events now)[i]? =
      some { e with lastRun := some now } ∧
    now ≤ now ∧
    (shouldRun s (some now) now = false ↔
      ∀ next, s.nextAfter now = some next → now + tolerance < next) := by
  refine ⟨?_, le_refl now, ?_⟩
  · rw [checkAndRunTasks_getElem? schedules outcome events now i e he,
      if_pos ((runsAt_eq_true_iff schedules outcome now i e).mpr ⟨s, hs, hdue, b, hb⟩)]
  · unfold shouldRun
    cases hnext : s.nextAfter ((some now).getD epoch) with
    | none =>
      simp only [Option.getD_some] at hnext
      simp [hnext]
    | some next =>
      simp only [Option.getD_some] at hnext
      simp only [Option.getD_some, hnext, Option.some.injEq, decide_eq_false_iff_not,
        not_le]
      constructor
      · intro hlt m hm
        omega
      · intro h
        exact h next rfl

/-- Witness for C4 at a concrete input: the never-run top-of-minute task is
due at `now = 59` (first occurrence 60 is within the tolerance), the
successful run sets its `last_run` to 59, and the residual due check is
characterised by the next occurrence after 59. -/
theorem no_double_fire_iff_next_occurrence_beyond_tolerance_witness :
    (checkAndRunTasks schedOnlyM (fun _ => RunResult.spawned true) [taskMinute] 59)[0]? =
      some { taskMinute with lastRun := some 59 } ∧
    (59 : Int) ≤ 59 ∧
    (shouldRun everyMinuteTop (some 59) 59 = false ↔
      ∀ next, everyMinuteTop.nextAfter 59 = some next → 59 + tolerance < next) :=
  no_double_fire_iff_next_occurrence_beyond_tolerance schedOnlyM
    (fun _ => RunResult.spawned true) [taskMinute] 59 0 taskMinute everyMinuteTop
    rfl rfl (by decide) true rfl

/-- C5 counterexample: a task whose recorded `last_run` (5) lies at most 30
seconds in the tick's future is still due at `now = 0` (its next occurrence 6
is within `now + 30`), so the tick runs it and overwrites `last_run` with 0,
which is earlier than the previous value 5 — `last_run` decreased. -/
theorem tick_can_decrease_last_run :
    taskRanAtFive.lastRun = some 5 ∧
    checkAndRunTasks schedOnlyT (fun _ => RunResult.spawned true) [taskRanAtFive] 0 =
      [{ taskRanAtFive with lastRun := some 0 }] ∧
    (0 : Int) < 5 := by
  refine ⟨rfl, ?_, by decide⟩
  decide

/-- C5 amended: provided no event's recorded `last_run` lies in the tick's
future (every recorded `last_run` is at most the tick's `now`), a tick never
assigns a task a `last_run` earlier than its previous one: each task's
`last_run` is either left unchanged or set to `now`.  Without that proviso a
tick can decrease `last_run`. -/
theorem tick_never_decreases_past_last_run
    (schedules : String → Option Schedule) (outcome : Nat → RunResult)
    (events : List Event) (now : Int)
    (hpast : ∀ e ∈ events, ∀ t, e.lastRun = some t → t ≤ now) :
    ∀ (i : Nat) (e : Event) (t : Int), events[i]? = some e → e.lastRun = some t →
      ∃ t', ((checkAndRunTasks schedules outcome events now)[i]?).map Event.lastRun =
          some (some t') ∧ t ≤ t' := by
  intro i e t he hlast
  have key := checkAndRunTasks_getElem? schedules outcome events now i e he
  by_cases h : runsAt schedules outcome now i e = true
  · refine ⟨now, ?_, ?_⟩
    · rw [key, if_pos h]
      rfl
    · have hi : i < events.length := by
        by_contra hcon
        push_neg at hcon
        rw [List.getElem?_eq_none hcon] at he
        cases he
      have h2 := List.getElem?_eq_getElem (l := events) hi
      rw [he] at h2
      injection h2 with h3
      exact hpast e (h3 ▸ List.getElem_mem hi) t hlast
  · refine ⟨t, ?_, le_refl t⟩
    rw [key, if_neg h]
    simp [hlast]

/-- Witness for C5 at a concrete input: with `last_run = 5` and a tick at
`now = 100`, the task's `last_run` can only advance. -/
theorem tick_never_decreases_past_last_run_witness :
    ∃ t', ((checkAndRunTasks schedOnlyT (fun _ => RunResult.spawned true)
        [taskRanAtFive] 100)[0]?).map Event.lastRun = some (some t') ∧ (5 : Int) ≤ t' :=
  tick_never_decreases_past_last_run schedOnlyT (fun _ => RunResult.spawned true)
    [taskRanAtFive] 100
    (by
      intro e he t ht
      rw [List.mem_singleton] at he
      subst he
      simp only [taskRanAtFive, Option.some.injEq] at ht
      omega)
    0 taskRanAtFive 5 rfl rfl

/-- In-memory state of the scheduler loop: the schedule map (the Schedule
Index, `Scheduler::schedules`) and the registry contents
(`Scheduler::storage`). -/
structure SchedulerState where
  schedules : String → Option Schedule
  storage : Storage

/-- Model of the Schedule Index construction shared by
`Scheduler::load_events` and `Scheduler::reload_events`: for each event whose
cron expression parses, insert its slug into the map (later inserts
overwrite); events whose expression fails to parse are skipped with a logged
diagnostic.  `parseCron` models `cron::Schedule::from_str`. -/
def buildIndex (parseCron : String → Option Schedule) (events : List Event) :
    String → Option Schedule :=
  events.foldl
    (fun acc e =>
      match parseCron e.cron with
      | some sched => fun slug => if slug = e.slug then some sched else acc slug
      | none => acc)
    (fun _ => none)

/-- Model of `Scheduler::reload_events`: `loadResult` is the outcome of
`Storage::load()` on this tick.  The source first performs the fallible load
(returning early on error via `?`) and only then replaces `self.schedules`
and `self.storage`. -/
def reloadEvents (parseCron : String → Option Schedule)
    (loadResult : Except String Storage) (_st : SchedulerState) :
    Except String SchedulerState :=
  match loadResult with
  | .error e => .error e
  | .ok storage => .ok { schedules := buildIndex parseCron storage.events, storage := storage }

/-- Model of the reload step of one iteration of `Scheduler::run`: on a
reload error the loop logs it and proceeds with the previous state. -/
def tickReloadStep (parseCron : String → Option Schedule)
    (loadResult : Except String Storage) (st : SchedulerState) : SchedulerState :=
  match reloadEvents parseCron loadResult st with
  | .ok st' => st'
  | .error _ => st

/-- C6: when the registry reload of a tick fails, the loop proceeds with the
previous state: the in-memory registry contents and the Schedule Index are
exactly as they were before the failed reload. -/
theorem failed_reload_leaves_state_unchanged
    (parseCron : String → Option Schedule) (loadResult : Except String Storage)
    (st : SchedulerState) (msg : String) (h : loadResult = .error msg) :
    tickReloadStep parseCron loadResult st = st := by
  subst h
  rfl

/-- Witness for C6 at a concrete input: a failing load leaves a concrete
scheduler state untouched. -/
theorem failed_reload_leaves_state_unchanged_witness :
    tickReloadStep (fun _ => none) (Except.error "permission denied")
      ⟨schedOnlyT, ⟨[taskNeverRun]⟩⟩ = ⟨schedOnlyT, ⟨[taskNeverRun]⟩⟩ :=
  failed_reload_leaves_state_unchanged (fun _ => none)
    (Except.error "permission denied") ⟨schedOnlyT, ⟨[taskNeverRun]⟩⟩
    "permission denied" rfl

/-- Model of `handle_add(slug, cron_expr, command)` from `src/cli.rs` acting
on the persisted registry `persisted`: first validate the cron expression
(`cron::Schedule::from_str`, modelled by `parseCron`); then load the
registry; reject when some existing event has the same slug; otherwise append
the new event (with `command.join(" ")`, `pid = None`, `created_at = now`,
`last_run = None`, `active = true`) and save.  The returned value is the
persisted registry on success, or the error message. -/
def handleAdd (parseCron : String → Option Schedule) (slug cronExpr : String)
    (command : List String) (now : Int) (persisted : Storage) :
    Except String Storage :=
  match parseCron cronExpr with
  | none => .error "Invalid cron expression"
  | some _ =>
    if persisted.events.any (fun e => e.slug = slug) then
      .error "Task with this slug already exists"
    else
      .ok { events := persisted.events ++
        [{ slug := slug, cron := cronExpr, command := String.intercalate " " command,
           pid := none, createdAt := now, lastRun := none, active := true }] }

/-- Contents of the registry file after a `handle_add` call: `handle_add`
only writes through `Storage::save` on the success path, so on error the file
keeps its previous contents. -/
def persistedAfterAdd (parseCron : String → Option Schedule) (slug cronExpr : String)
    (command : List String) (now : Int) (persisted : Storage) : Storage :=
  match handleAdd parseCron slug cronExpr command now persisted with
  | .ok st => st
  | .error _ => persisted

/-- C7: adding a task whose slug equals the slug of an existing task returns
an error, and the persisted registry is left unchanged (same count, same
contents). -/
theorem add_duplicate_slug_rejected_registry_unchanged
    (parseCron : String → Option Schedule) (slug cronExpr : String)
    (command : List String) (now : Int) (persisted : Storage) (e : Event)
    (hmem : e ∈ persisted.events) (hslug : e.slug = slug) :
    (∃ msg, handleAdd parseCron slug cronExpr command now persisted =
      Except.error msg) ∧
    persistedAfterAdd parseCron slug cronExpr command now persisted = persisted ∧
    (persistedAfterAdd parseCron slug cronExpr command now persisted).events.length =
      persisted.events.length := by
  have hdup : persisted.events.any (fun e => e.slug = slug) = true := by
    rw [List.any_eq_true]
    exact ⟨e, hmem, by simp [hslug]⟩
  have herr : ∃ msg, handleAdd parseCron slug cronExpr command now persisted =
      Except.error msg := by
    unfold handleAdd
    cases parseCron cronExpr with
    | none => exact ⟨"Invalid cron expression", rfl⟩
    | some s =>
      rw [if_pos hdup]
      exact ⟨"Task with this slug already exists", rfl⟩
  refine ⟨herr, ?_, ?_⟩ <;>
    · obtain ⟨msg, hm⟩ := herr
      unfold persistedAfterAdd
      rw [hm]

/-- Witness for C7 at a concrete input: re-adding slug `t` over a registry
already holding it fails and leaves the registry as it was. -/
theorem add_duplicate_slug_rejected_registry_unchanged_witness :
    (∃ msg, handleAdd (fun _ => some everySecond) "t" "* * * * * *" ["echo", "hi"] 7
      ⟨[taskNeverRun]⟩ = Except.error msg) ∧
    persistedAfterAdd (fun _ => some everySecond) "t" "* * * * * *" ["echo", "hi"] 7
      ⟨[taskNeverRun]⟩ = ⟨[taskNeverRun]⟩ ∧
    (persistedAfterAdd (fun _ => some everySecond) "t" "* * * * * *" ["echo", "hi"] 7
      ⟨[taskNeverRun]⟩).events.length = (⟨[taskNeverRun]⟩ : Storage).events.length :=
  add_duplicate_slug_rejected_registry_unchanged (fun _ => some everySecond)
    "t" "* * * * * *" ["echo", "hi"] 7 ⟨[taskNeverRun]⟩ taskNeverRun
    (List.mem_singleton.mpr rfl) rfl

/-- JSON document values, modelling `serde_json::Value` as far as the
registry format uses it.  `Storage::save` writes
`serde_json::to_string_pretty(self)` and `Storage::load` reads it back with
`serde_json::from_str`; the text layer (printing a value and parsing it back)
is the external crate's guaranteed inverse, so the round trip is modelled at
the level of document values.  Timestamps are rendered by their integer
second count (chrono's RFC 3339 rendering is injective on timestamps). -/
inductive Json where
  | null
  | bool (b : Bool)
  | num (n : Int)
  | str (s : String)
  | arr (elems : List Json)
  | obj (fields : List (String × Json))

/-- Field lookup in a JSON object, as the derived `serde::Deserialize`
resolves struct fields by name. -/
def getField (fields : List (String × Json)) (name : String) : Option Json :=
  match fields with
  | [] => none
  | (k, v) :: rest => if k = name then some v else getField rest name

def Json.asStr : Json → Option String
  | .str s => some s
  | _ => none

def Json.asInt : Json → Option Int
  | .num n => some n
  | _ => none

def Json.asBool : Json → Option Bool
  | .bool b => some b
  | _ => none

/-- Decoding of an `Option` field: derived serde maps `null` to `None` and a
plain value to `Some`. -/
def Json.asOptInt : Json → Option (Option Int)
  | .null => some none
  | .num n => some (some n)
  | _ => none

/-- Serialization of an optional integer: `None` renders as `null`. -/
def optIntToJson : Option Int → Json
  | none => Json.null
  | some n => Json.num n

/-- Model of the derived `Serialize` for `storage::Event`: an object holding
every field under its field name. -/
def Event.toJson (e : Event) : Json :=
  Json.obj [("slug", Json.str e.slug), ("cron", Json.str e.cron),
    ("command", Json.str e.command), ("pid", optIntToJson e.pid),
    ("created_at", Json.num e.createdAt), ("last_run", optIntToJson e.lastRun),
    ("active", Json.bool e.active)]

/-- Model of the derived `Deserialize` for `storage::Event`: look every field
up by name and decode it; any missing or ill-typed field is a decode
error. -/
def Event.fromJson : Json → Option Event
  | Json.obj fields => do
    let slug ← getField fields "slug" >>= Json.asStr
    let cron ← getField fields "cron" >>= Json.asStr
    let command ← getField fields "command" >>= Json.asStr
    let pid ← getField fields "pid" >>= Json.asOptInt
    let createdAt ← getField fields "created_at" >>= Json.asInt
    let lastRun ← getField fields "last_run" >>= Json.asOptInt
    let active ← getField fields "active" >>= Json.asBool
    pure { slug := slug, cron := cron, command := command, pid := pid,
           createdAt := createdAt, lastRun := lastRun, active := active }
  | _ => none

/-- Model of `Storage::save` (up to the text layer): the serialized document
of the registry, an object with the `events` array. -/
def Storage.save (st : Storage) : Json :=
  Json.obj [("events", Json.arr (st.events.map Event.toJson))]

def decodeEvents : List Json → Option (List Event)
  | [] => some []
  | j :: rest => do
    let e ← Event.fromJson j
    let es ← decodeEvents rest
    pure (e :: es)

/-- Model of `Storage::load`: when the registry file does not exist
(`file = none`) the function returns `Ok(Storage::new())`, an empty registry;
otherwise it decodes the file's document, failing on malformed contents. -/
def Storage.load (file : Option Json) : Except String Storage :=
  match file with
  | none => .ok Storage.new
  | some doc =>
    match doc with
    | Json.obj fields =>
      match getField fields "events" with
      | some (Json.arr elems) =>
        match decodeEvents elems with
        | some events => .ok { events := events }
        | none => .error "invalid registry contents"
      | _ => .error "invalid registry contents"
    | _ => .error "invalid registry contents"

theorem Event.fromJson_toJson (e : Event) : Event.fromJson (Event.toJson e) = some e := by
  obtain ⟨slug, cron, command, pid, createdAt, lastRun, active⟩ := e
  cases pid <;> cases lastRun <;> rfl

theorem decodeEvents_map_toJson (events : List Event) :
    decodeEvents (events.map Event.toJson) = some events := by
  induction events with
  | nil => rfl
  | cons e rest ih =>
    simp only [List.map_cons, decodeEvents, Event.fromJson_toJson, ih, Option.bind_eq_bind,
      Option.some_bind, Option.pure_def]

/-- C8: saving a registry of N tasks and loading it back yields exactly the
same N tasks; in particular `slug`, `recurrence` (`cron`), `command`,
`active` and `created_at` of every task are identical to what was written. -/
theorem storage_load_after_save_identity (st : Storage) :
    Storage.load (some (Storage.save st)) = Except.ok st ∧
    ∀ st', Storage.load (some (Storage.save st)) = Except.ok st' →
      st'.events.length = st.events.length ∧
      ∀ (i : Nat) (e e' : Event), st.events[i]? = some e → st'.events[i]? = some e' →
        e'.slug = e.slug ∧ e'.cron = e.cron ∧ e'.command = e.command ∧
        e'.active = e.active ∧ e'.createdAt = e.createdAt := by
  have hload : Storage.load (some (Storage.save st)) = Except.ok st := by
    simp [Storage.load, Storage.save, getField, decodeEvents_map_toJson]
  refine ⟨hload, ?_⟩
  intro st' h
  rw [hload] at h
  cases h
  refine ⟨rfl, ?_⟩
  intro i e e' he he'
  rw [he] at he'
  cases he'
  exact ⟨rfl, rfl, rfl, rfl, rfl⟩

/-- Witness for C8 at a concrete input: a two-task registry survives the save
and load round trip unchanged. -/
theorem storage_load_after_save_identity_witness :
    Storage.load (some (Storage.save ⟨[taskNeverRun, taskMinute]⟩)) =
      Except.ok (⟨[taskNeverRun, taskMinute]⟩ : Storage) :=
  (storage_load_after_save_identity ⟨[taskNeverRun, taskMinute]⟩).1

/-- C10: loading the registry when the registry file does not exist succeeds
with an empty registry (zero tasks) instead of an error. -/
theorem load_missing_file_empty_registry :
    Storage.load none = Except.ok Storage.new ∧ Storage.new.events.length = 0 :=
  ⟨rfl, rfl⟩

/-- State the daemon lifecycle operations act on: the PID marker file (the
recorded decimal process ID when present) and the liveness of each process ID
as observed by the signal-0 probe of `is_process_running`. -/
structure DaemonState where
  pidFile : Option Nat
  live : Nat → Bool

/-- The grace period `stop_daemon` sleeps after sending SIGTERM:
`Duration::from_millis(500)`. -/
def graceMillis : Nat := 500

/-- Result of `stop_daemon`: `notRunning` and `staleState` are the error
returns of the source (`Daemon is not running`, and
`Daemon is not running (stale PID file removed)`); `stopped pid waited`
is the success return after SIGTERM was sent to `pid` and `waited`
milliseconds of grace elapsed. -/
inductive StopResult where
  | notRunning
  | staleState
  | stopped (pid : Nat) (waitedMillis : Nat)
  deriving DecidableEq, Repr

/-- Model of `stop_daemon` from `src/daemon.rs`: with no PID marker, fail
with `notRunning` and touch nothing; with a marker whose process is not
live, remove the stale marker and fail with `staleState`; otherwise send
SIGTERM to the recorded process, sleep the 500 ms grace period, and remove
the marker unconditionally. -/
def stopDaemon (st : DaemonState) : StopResult × DaemonState :=
  match st.pidFile with
  | none => (StopResult.notRunning, st)
  | some pid =>
    if st.live pid then
      (StopResult.stopped pid graceMillis, { st with pidFile := none })
    else
      (StopResult.staleState, { st with pidFile := none })

/-- C9: `stop_daemon` fails with `NotRunning` when no PID marker exists
(leaving the state untouched); with a marker whose recorded process is not
live it removes the stale marker and fails with `StaleState`; otherwise it
sends SIGTERM to the recorded process ID, waits the 500 ms grace period, and
removes the marker unconditionally. -/
theorem stopDaemon_cases (st : DaemonState) :
    (st.pidFile = none → stopDaemon st = (StopResult.notRunning, st))
    ∧ (∀ pid, st.pidFile = some pid → st.live pid = false →
        stopDaemon st = (StopResult.staleState, { st with pidFile := none }))
    ∧ (∀ pid, st.pidFile = some pid → st.live pid = true →
        stopDaemon st = (StopResult.stopped pid graceMillis, { st with pidFile := none })) := by
  refine ⟨?_, ?_, ?_⟩
  · intro h
    unfold stopDaemon
    rw [h]
  · intro pid hp hl
    unfold stopDaemon
    rw [hp]
    simp [hl]
  · intro pid hp hl
    unfold stopDaemon
    rw [hp]
    simp [hl]

/-- Witness for C9 at a concrete input: stopping a daemon whose marker
records the live process 7 sends SIGTERM to 7, waits the 500 ms grace period,
and removes the marker. -/
theorem stopDaemon_cases_witness :
    stopDaemon ⟨some 7, fun _ => true⟩ =
      (StopResult.stopped 7 graceMillis, ⟨none, fun _ => true⟩) :=
  (stopDaemon_cases ⟨some 7, fun _ => true⟩).2.2 7 rfl rfl
